import Mathlib

/-!
Shallow embedding of the two source modules of the repository
(`gpu_manager.py` and `gpu_mem_track.py`) and proofs about the
behaviour their specification claims.

Conventions of the embedding:
* Python `float` quantities (memory sizes, power readings, megabyte
  sizes) are modelled as `ℚ`; every claim checked here only involves
  exact decimal values and order comparisons, which ℚ models faithfully.
* Python's `sorted` is a stable sort; it is embedded as Mathlib's
  `List.insertionSort` (which is stable) applied to the comparator
  induced by the `key`/`reverse` arguments: `sorted(xs, key=k)` becomes
  sorting with `k a ≤ k b`, and `sorted(xs, key=k, reverse=True)`
  becomes sorting with `k b ≤ k a` (both keep tied elements in input
  order, exactly as CPython guarantees).
* `print` diagnostics are modelled as explicitly returned log values.
* Fallible operations (list indexing, name resolution) return
  `Option`/`Except` values.
-/

/-- One parsed line of the external query (`query_gpu` in the source):
the per-device metrics handed to the manager.  Power readings whose
text contains `Not Support` are replaced by the numeral `1` by the
source's `parse`, so the sentinel for an unsupported power metric is
the value `1` itself. -/
structure GPUInfo where
  index : Nat
  gpu_name : String
  memory_free : ℚ
  memory_total : ℚ
  power_draw : ℚ
  power_limit : ℚ
deriving DecidableEq, Repr

/-- A device record held by the manager: the queried metrics plus the
`specified` flag added in `GPUManager.__init__`. -/
structure GPU where
  index : Nat
  gpu_name : String
  memory_free : ℚ
  memory_total : ℚ
  power_draw : ℚ
  power_limit : ℚ
  specified : Bool
deriving DecidableEq, Repr

/-- Python `sorted(xs, key=k)` (ascending, stable). -/
def sortOnKeyAsc (key : α → ℚ) (l : List α) : List α :=
  List.insertionSort (fun a b => key a ≤ key b) l

/-- Python `sorted(xs, key=k, reverse=True)` (descending, stable). -/
def sortOnKeyDesc (key : α → ℚ) (l : List α) : List α :=
  List.insertionSort (fun a b => key b ≤ key a) l

/-- The first element of a list attaining the maximal key, if any:
the element a stable descending sort puts first. -/
def firstMaxBy (key : α → ℚ) : List α → Option α
  | [] => none
  | a :: rest =>
    match firstMaxBy key rest with
    | none => some a
    | some m => if key m ≤ key a then some a else some m

/-- `by_power` from the source: scoring key for the power-ratio sort.
A device whose `power.draw` or `power.limit` equals `1` — the value the
parser substitutes for a `Not Support` reading — is given the fixed
score `1`; every other device scores `power.draw / power.limit`. -/
def by_power (d : GPU) : ℚ :=
  if d.power_draw = 1 ∨ d.power_limit = 1 then 1
  else d.power_draw / d.power_limit

/-- Whether `by_power` takes the sentinel branch for `d` (and prints
its diagnostic). -/
def powerUnsupported (d : GPU) : Bool :=
  d.power_draw == 1 || d.power_limit == 1

namespace GPUManager

/-- `GPUManager.__init__`: store the queried records, adding
`specified = False` to each.  The constructor performs no check on the
number of devices. -/
def init (queried : List GPUInfo) : List GPU :=
  queried.map (fun q =>
    { index := q.index, gpu_name := q.gpu_name,
      memory_free := q.memory_free, memory_total := q.memory_total,
      power_draw := q.power_draw, power_limit := q.power_limit,
      specified := false })

/-- `old_info.update(new_info)`: every key present in the fresh query
record overwrites the old one; `specified` is not a query key, so it
survives. -/
def updateRecord (old : GPU) (q : GPUInfo) : GPU :=
  { index := q.index, gpu_name := q.gpu_name,
    memory_free := q.memory_free, memory_total := q.memory_total,
    power_draw := q.power_draw, power_limit := q.power_limit,
    specified := old.specified }

/-- The refresh loop of `GPUManager.find`:
`for old_info, new_info in zip(self.gpus, query_gpu(...)): old_info.update(new_info)`.
`zip` pairs records positionally and stops at the shorter list, and the
updates mutate the existing list in place, so old records beyond the
fresh list's length survive unchanged and fresh records beyond the old
list's length are dropped. -/
def refresh : List GPU → List GPUInfo → List GPU
  | [], _ => []
  | g :: gs, [] => g :: gs
  | g :: gs, q :: qs => updateRecord g q :: refresh gs qs

/-- The by-free-ratio scoring key (`memory.free / memory.total`). -/
def memRatio (g : GPU) : ℚ := g.memory_free / g.memory_total

/-- `GPUManager._sort_by_memory`: descending by raw `memory.free` when
`by_size` is true, descending by `memory.free / memory.total`
otherwise. -/
def _sort_by_memory (gpus : List GPU) (by_size : Bool) : List GPU :=
  if by_size then sortOnKeyDesc (fun g => g.memory_free) gpus
  else sortOnKeyDesc memRatio gpus

/-- `GPUManager._sort_by_power`: ascending by the `by_power` score. -/
def _sort_by_power (gpus : List GPU) : List GPU :=
  sortOnKeyAsc by_power gpus

/-- The indices named by the `Power management unable for GPU {i}`
diagnostics emitted while sorting by power: `sorted` evaluates its key
once per element in list order, so one message is printed per sentinel
device, in list order. -/
def by_power_logs (gpus : List GPU) : List Nat :=
  (gpus.filter powerUnsupported).map (fun d => d.index)

/-- `unspecified_gpus = [gpu for gpu in self.gpus if not gpu['specified']] or self.gpus`:
the candidate pool, falling back to the full list when every record is
specified (an empty Python list is falsy). -/
def poolOf (gpus2 : List GPU) : List GPU :=
  let unspecified := gpus2.filter (fun g => !g.specified)
  if unspecified.isEmpty then gpus2 else unspecified

/-- `chosen_gpu['specified'] = True` mutates the chosen dict object,
which is also an element of `self.gpus`: functionally, mark the first
record of the list equal to the chosen one. -/
def markFirst : List GPU → GPU → List GPU
  | [], _ => []
  | g :: gs, c => if g = c then { c with specified := true } :: gs else g :: markFirst gs c

def msgMode0 : String := "Finding best w.r.t available memory..."

def msgMode1 : String := "Finding best w.r.t portion of available memory..."

def msgMode2 : String := "Finding best GPU w.r.t. power..."

def msgModeElse : String := "Unsupported mode, finding GPU w.r.t portion of available memory..."

def powerMsg (i : Nat) : String := "Power management unable for GPU " ++ toString i

/-- The result of a successful `GPUManager.find` call: the returned
device index, the updated record list, and the printed diagnostics. -/
structure ChooseResult where
  chosen_index : Nat
  state : List GPU
  logs : List String
deriving DecidableEq, Repr

/-- `GPUManager.find`: refresh the records, build the candidate pool,
sort it according to `mode` (`0`: raw free memory descending; `1`, `2`:
power score ascending; anything else: free-memory ratio descending),
take the head, mark it specified and return its index.  Taking `[0]` of
the sorted pool raises `IndexError` on an empty record list, modelled
by `none`. -/
def find (gpus : List GPU) (fresh : List GPUInfo) (mode : Nat) : Option ChooseResult :=
  let gpus2 := refresh gpus fresh
  let pool := poolOf gpus2
  let modeLog :=
    if mode = 0 then msgMode0
    else if mode = 1 then msgMode1
    else if mode = 2 then msgMode2
    else msgModeElse
  let sortedPool :=
    if mode = 0 then _sort_by_memory pool true
    else if mode = 1 then _sort_by_power pool
    else if mode = 2 then _sort_by_power pool
    else _sort_by_memory pool false
  let powerLogs :=
    if mode = 1 ∨ mode = 2 then (by_power_logs pool).map powerMsg else []
  match sortedPool.head? with
  | none => none
  | some c =>
    some { chosen_index := c.index, state := markFirst gpus2 c,
           logs := modeLog :: powerLogs }

end GPUManager

/-- One normalized allocation descriptor, as produced by
`MemTracker.get_tensor_info` and regrouped in `MemTracker.track`:
the type string, the shape string and the size in megabytes. -/
structure TensorInfo where
  type_str : String
  shape_str : String
  size_mb : ℚ
deriving DecidableEq, Repr

/-- One element of a snapshot summary: a descriptor together with its
occurrence count, i.e. one member of the set
`{info + (info_tuple_list.count(info),) for info in info_tuple_list}`. -/
structure SummaryEntry where
  type_str : String
  shape_str : String
  size_mb : ℚ
  count : Nat
deriving DecidableEq, Repr

/-- Keep the first occurrence of every element (helper for building
the summary set: a Python set's iteration order is unspecified, so the
first-occurrence order is used as the canonical listing of the set;
no proved statement depends on that order). -/
def firstDedupAux [DecidableEq α] : List α → List α → List α
  | _, [] => []
  | seen, a :: rest =>
    if a ∈ seen then firstDedupAux seen rest
    else a :: firstDedupAux (a :: seen) rest

def firstDedup [DecidableEq α] (l : List α) : List α :=
  firstDedupAux [] l

namespace MemTracker

/-- `new_summary = {info + (info_tuple_list.count(info),) for info in info_tuple_list}`:
each distinct descriptor of the scan, paired with the number of times
it occurs in the scan. -/
def summarize (infos : List TensorInfo) : List SummaryEntry :=
  (firstDedup infos).map (fun i =>
    { type_str := i.type_str, shape_str := i.shape_str,
      size_mb := i.size_mb, count := infos.count i })

/-- `self.memory_min = 0.001`: entries whose size is not strictly above
this are not written to the report. -/
def memory_min : ℚ := 1 / 1000

/-- `new_summary - self.last_summary`: the set difference of
(type, shape, size, count) 4-tuples, listed in current-summary order.
Both the `+` and the `-` section of the report are computed from this
one difference in the source. -/
def track_diff (last_summary new_summary : List SummaryEntry) : List SummaryEntry :=
  new_summary.filter (fun e => !(last_summary.contains e))

/-- The detail section of one `MemTracker.track` report: either the
explicit `No change in tensor shapes, sizes and types` line, or the
list of `+` lines followed by the list of `-` lines. -/
inductive TrackReport
  | noChange
  | changeLines (plus minus : List SummaryEntry)
deriving DecidableEq, Repr

/-- The detail block of `MemTracker.track` as a function of the
previous and current summaries: if `new_summary - last_summary` is
empty, the no-change line; otherwise the difference sorted by size
(`itemgetter(2)`) descending for the `+` lines and ascending for the
`-` lines, each line written only when its size exceeds
`memory_min`. -/
def track_detail (last_summary new_summary : List SummaryEntry) : TrackReport :=
  let diffs := track_diff last_summary new_summary
  if diffs.isEmpty then TrackReport.noChange
  else
    TrackReport.changeLines
      ((sortOnKeyDesc (fun e => e.size_mb) diffs).filter
        (fun e => decide (memory_min < e.size_mb)))
      ((sortOnKeyAsc (fun e => e.size_mb) diffs).filter
        (fun e => decide (memory_min < e.size_mb)))

end MemTracker

/-- A Python runtime error relevant to `distinguish_param_cache`. -/
inductive PyErr
  | nameError (name : String)
  | indexError
deriving DecidableEq, Repr

/-- Python `xs[i]` for a non-negative index: the element, or an
`IndexError` past the end. -/
def pyGet : List α → Nat → Except PyErr α
  | [], _ => Except.error PyErr.indexError
  | a :: _, 0 => Except.ok a
  | _ :: l, n + 1 => pyGet l n

/-- The names bound at module scope of `gpu_mem_track.py`: the imports
and the class itself. -/
def memTrackModuleNames : List String :=
  ["gc", "datetime", "pynvml", "os", "torch", "np", "itemgetter", "MemTracker"]

/-- The builtins the body of `distinguish_param_cache` refers to. -/
def pyBuiltinNames : List String :=
  ["enumerate", "range", "str"]

/-- The local names bound in `distinguish_param_cache` by the time its
second statement executes: the parameter and the first comprehension's
target. -/
def distinguishLocalNames : List String :=
  ["tensor_list", "param_indices"]

/-- Python name resolution inside `distinguish_param_cache`: a name is
found if it is a local, a module global, or a builtin. -/
def nameBound (s : String) : Bool :=
  distinguishLocalNames.contains s || memTrackModuleNames.contains s ||
    pyBuiltinNames.contains s

/-- Resolving a name that should denote an integer.  The value of a
bound name is irrelevant to every claim checked here (no bound integer
name is ever resolved through this function); resolving an unbound
name raises `NameError`. -/
def resolveIntName (s : String) : Except PyErr Nat :=
  if nameBound s then Except.ok 0 else Except.error (PyErr.nameError s)

/-- `str(v).find('param') != -1` for a cell modelled as a string. -/
def cellMentionsParam (v : String) : Bool :=
  (v.splitOn ("param")).length != 1

/-- `MemTracker.distinguish_param_cache`, with each cell of the
row-major `tensor_list` modelled as an opaque string.  The body first
builds `param_indices` from `tensor_list[0]` (raising `IndexError` when
the argument is empty), then evaluates `range(n)` — and `n` is bound
neither locally, nor at module scope, nor as a builtin, so this raises
`NameError` before anything is returned.  The remainder of the body is
modelled after the source text but is unreachable. -/
def distinguish_param_cache (tensor_list : List (List String)) :
    Except PyErr (List (List String) × List (List String)) := do
  let row0 ← pyGet tensor_list 0
  let param_indices := (row0.enum.filter (fun p => cellMentionsParam p.2)).map (fun p => p.1)
  let n ← resolveIntName ("n")
  let cache_indices := (List.range n).filter (fun i => !(param_indices.contains i))
  let row1 ← pyGet tensor_list 1
  let row2 ← pyGet tensor_list 2
  let row3 ← pyGet tensor_list 3
  let p0 ← param_indices.mapM (fun i => pyGet row0 i)
  let p1 ← param_indices.mapM (fun i => pyGet row1 i)
  let p2 ← param_indices.mapM (fun i => pyGet row2 i)
  let p3 ← param_indices.mapM (fun i => pyGet row3 i)
  let c0 ← cache_indices.mapM (fun i => pyGet row0 i)
  let c1 ← cache_indices.mapM (fun i => pyGet row1 i)
  let c2 ← cache_indices.mapM (fun i => pyGet row2 i)
  let c3 ← cache_indices.mapM (fun i => pyGet row3 i)
  return ([p0, p1, p2, p3], [c0, c1, c2, c3])

/-! ### Concrete records used as test inputs in the checks below -/

/-- Device 0: little used in relative terms would be wrong — large
absolute free memory, small free ratio. -/
def qA : GPUInfo :=
  { index := 0, gpu_name := "A", memory_free := 100, memory_total := 1000,
    power_draw := 50, power_limit := 200 }

/-- Device 1: small absolute free memory, free ratio 1. -/
def qB : GPUInfo :=
  { index := 1, gpu_name := "B", memory_free := 50, memory_total := 50,
    power_draw := 50, power_limit := 200 }

/-- The record the manager holds for `qA` before any claim. -/
def gA : GPU :=
  { index := 0, gpu_name := "A", memory_free := 100, memory_total := 1000,
    power_draw := 50, power_limit := 200, specified := false }

/-- The record the manager holds for `qB` before any claim. -/
def gB : GPU :=
  { index := 1, gpu_name := "B", memory_free := 50, memory_total := 50,
    power_draw := 50, power_limit := 200, specified := false }

/-- A device whose `power.draw` carries the `Not Support` sentinel
value `1`. -/
def gU : GPU :=
  { index := 0, gpu_name := "U", memory_free := 10, memory_total := 100,
    power_draw := 1, power_limit := 100, specified := false }

/-- A supported device momentarily drawing more than its power limit
(`by_power` score `6/5 > 1`). -/
def gOver : GPU :=
  { index := 1, gpu_name := "V", memory_free := 10, memory_total := 100,
    power_draw := 300, power_limit := 250, specified := false }

/-- A claimed record for device index 0, used for the refresh checks. -/
def g8 : GPU :=
  { index := 0, gpu_name := "A", memory_free := 100, memory_total := 1000,
    power_draw := 50, power_limit := 200, specified := true }

/-- Fresh query for device index 0. -/
def q8a : GPUInfo :=
  { index := 0, gpu_name := "A", memory_free := 70, memory_total := 1000,
    power_draw := 60, power_limit := 200 }

/-- Fresh query for a device index 1 seen for the first time. -/
def q8b : GPUInfo :=
  { index := 1, gpu_name := "B", memory_free := 400, memory_total := 1000,
    power_draw := 60, power_limit := 200 }

/-- The worked example's 16-element tensor: 1.0 MB. -/
def tInfo44 : TensorInfo :=
  { type_str := "Tensor", shape_str := "(4, 4)", size_mb := 1 }

/-- The worked example's 8-element tensor: 0.0005 MB, below the
threshold. -/
def tInfo8 : TensorInfo :=
  { type_str := "Tensor", shape_str := "(8,)", size_mb := 1 / 2000 }

/-- Previous-summary entry of the worked example: two (4,4) tensors. -/
def ePrev44 : SummaryEntry :=
  { type_str := "Tensor", shape_str := "(4, 4)", size_mb := 1, count := 2 }

/-- Current-summary entry: three (4,4) tensors. -/
def eCur44 : SummaryEntry :=
  { type_str := "Tensor", shape_str := "(4, 4)", size_mb := 1, count := 3 }

/-- Current-summary entry: five small tensors, below the threshold. -/
def eCur8 : SummaryEntry :=
  { type_str := "Tensor", shape_str := "(8,)", size_mb := 1 / 2000, count := 5 }

/-- The worked example's current scan: three (4,4) tensors and five
(8,) tensors. -/
def exCurrentInfos : List TensorInfo :=
  List.replicate 3 tInfo44 ++ List.replicate 5 tInfo8

/-- A single large allocation: total impact 1 MB × 1. -/
def eBig : SummaryEntry :=
  { type_str := "t1", shape_str := "s1", size_mb := 1, count := 1 }

/-- Many middling allocations: total impact 0.5 MB × 10 = 5 MB. -/
def eMany : SummaryEntry :=
  { type_str := "t2", shape_str := "s2", size_mb := 1 / 2, count := 10 }

/-! ### Helper lemmas about the stable sorts and the record merge -/

theorem head_orderedInsert (r : α → α → Prop) [DecidableRel r] (a b : α) (l : List α) :
    (List.orderedInsert r a (b :: l)).head? = if r a b then some a else some b := by
  simp only [List.orderedInsert]
  split <;> rfl

theorem head_sortOnKeyDesc (key : α → ℚ) (l : List α) :
    (sortOnKeyDesc key l).head? = firstMaxBy key l := by
  unfold sortOnKeyDesc
  induction l with
  | nil => rfl
  | cons a rest ih =>
    show (List.orderedInsert _ a (List.insertionSort _ rest)).head? = _
    cases h : List.insertionSort (fun a b => key b ≤ key a) rest with
    | nil =>
      have hlen := (List.perm_insertionSort (fun a b => key b ≤ key a) rest).length_eq
      rw [h] at hlen
      have hrest : rest = [] := List.eq_nil_of_length_eq_zero hlen.symm
      subst hrest
      simp [firstMaxBy]
    | cons b bs =>
      rw [h] at ih
      simp only [List.head?] at ih
      rw [head_orderedInsert]
      unfold firstMaxBy
      rw [← ih]

theorem firstMaxBy_eq_none (key : α → ℚ) :
    ∀ l : List α, firstMaxBy key l = none → l = []
  | [], _ => rfl
  | a :: rest, h => by
    exfalso
    unfold firstMaxBy at h
    cases hr : firstMaxBy key rest with
    | none => rw [hr] at h; simp at h
    | some m =>
      rw [hr] at h
      by_cases hc : key m ≤ key a <;> simp [hc] at h

theorem firstMaxBy_spec (key : α → ℚ) :
    ∀ (l : List α) (g : α), firstMaxBy key l = some g →
      ∃ l1 l2, l = l1 ++ g :: l2 ∧ (∀ y ∈ l, key y ≤ key g) ∧
        (∀ y ∈ l1, key y < key g) := by
  intro l
  induction l with
  | nil => intro g h; exact absurd h (by simp [firstMaxBy])
  | cons a rest ih =>
    intro g h
    unfold firstMaxBy at h
    cases hrest : firstMaxBy key rest with
    | none =>
      rw [hrest] at h
      have hrnil := firstMaxBy_eq_none key rest hrest
      subst hrnil
      have hag : a = g := by simpa using h
      subst hag
      exact ⟨[], [], rfl, by simp, by simp⟩
    | some m =>
      rw [hrest] at h
      obtain ⟨r1, r2, hsplit, hmax, hstrict⟩ := ih m hrest
      by_cases hc : key m ≤ key a
      · have hag : a = g := by simpa [hc] using h
        subst hag
        refine ⟨[], rest, rfl, ?_, by simp⟩
        intro y hy
        rcases List.mem_cons.mp hy with hya | hyr
        · subst hya; exact le_refl _
        · exact le_trans (hmax y hyr) hc
      · have hmg : m = g := by simpa [hc] using h
        subst hmg
        refine ⟨a :: r1, r2, by rw [hsplit, List.cons_append], ?_, ?_⟩
        · intro y hy
          rcases List.mem_cons.mp hy with hya | hyr
          · subst hya; exact le_of_lt (lt_of_not_le hc)
          · exact hmax y hyr
        · intro y hy
          rcases List.mem_cons.mp hy with hya | hyr
          · subst hya; exact lt_of_not_le hc
          · exact hstrict y hyr

theorem firstMaxBy_isSome (key : α → ℚ) (l : List α) (h : l ≠ []) :
    ∃ g, firstMaxBy key l = some g := by
  cases l with
  | nil => exact absurd rfl h
  | cons a rest =>
    unfold firstMaxBy
    cases firstMaxBy key rest with
    | none => exact ⟨a, rfl⟩
    | some m =>
      by_cases hc : key m ≤ key a
      · exact ⟨a, by simp [hc]⟩
      · exact ⟨m, by simp [hc]⟩

theorem pairwise_sortOnKeyAsc (key : α → ℚ) (l : List α) :
    (sortOnKeyAsc key l).Pairwise (fun a b => key a ≤ key b) := by
  haveI : IsTotal α (fun a b => key a ≤ key b) := ⟨fun a b => le_total (key a) (key b)⟩
  haveI : IsTrans α (fun a b => key a ≤ key b) :=
    ⟨fun _ _ _ hab hbc => le_trans hab hbc⟩
  exact List.sorted_insertionSort _ l

theorem pairwise_sortOnKeyDesc (key : α → ℚ) (l : List α) :
    (sortOnKeyDesc key l).Pairwise (fun a b => key b ≤ key a) := by
  haveI : IsTotal α (fun a b => key b ≤ key a) := ⟨fun a b => le_total (key b) (key a)⟩
  haveI : IsTrans α (fun a b => key b ≤ key a) :=
    ⟨fun _ _ _ hab hbc => le_trans hbc hab⟩
  exact List.sorted_insertionSort _ l

theorem sortOnKeyAsc_perm (key : α → ℚ) (l : List α) : (sortOnKeyAsc key l).Perm l :=
  List.perm_insertionSort _ l

theorem sortOnKeyDesc_perm (key : α → ℚ) (l : List α) : (sortOnKeyDesc key l).Perm l :=
  List.perm_insertionSort _ l

theorem sortOnKeyAsc_ne_nil (key : α → ℚ) (l : List α) (h : l ≠ []) :
    sortOnKeyAsc key l ≠ [] := by
  intro hnil
  have hlen := (sortOnKeyAsc_perm key l).length_eq
  rw [hnil] at hlen
  exact h (List.eq_nil_of_length_eq_zero hlen.symm)

theorem sortOnKeyDesc_ne_nil (key : α → ℚ) (l : List α) (h : l ≠ []) :
    sortOnKeyDesc key l ≠ [] := by
  intro hnil
  have hlen := (sortOnKeyDesc_perm key l).length_eq
  rw [hnil] at hlen
  exact h (List.eq_nil_of_length_eq_zero hlen.symm)

theorem refresh_length : ∀ (old : List GPU) (fresh : List GPUInfo),
    (GPUManager.refresh old fresh).length = old.length
  | [], _ => rfl
  | _ :: _, [] => rfl
  | _ :: gs, _ :: qs => by
    simp [GPUManager.refresh, refresh_length gs qs]

theorem refresh_ne_nil (old : List GPU) (fresh : List GPUInfo) (h : old ≠ []) :
    GPUManager.refresh old fresh ≠ [] := by
  intro hnil
  have := refresh_length old fresh
  rw [hnil] at this
  exact h (List.eq_nil_of_length_eq_zero this.symm)

theorem find_map_chosen_mode0 (st : List GPU) (fresh : List GPUInfo) :
    (GPUManager.find st fresh 0).map (fun r => r.chosen_index) =
      (firstMaxBy (fun g => g.memory_free)
        (GPUManager.poolOf (GPUManager.refresh st fresh))).map (fun g => g.index) := by
  unfold GPUManager.find GPUManager._sort_by_memory
  simp only [reduceIte]
  rw [head_sortOnKeyDesc]
  cases firstMaxBy (fun g => g.memory_free)
      (GPUManager.poolOf (GPUManager.refresh st fresh)) <;> rfl

theorem find_map_chosen_modeElse (st : List GPU) (fresh : List GPUInfo) (mode : Nat)
    (hm : 3 ≤ mode) :
    (GPUManager.find st fresh mode).map (fun r => r.chosen_index) =
      (firstMaxBy GPUManager.memRatio
        (GPUManager.poolOf (GPUManager.refresh st fresh))).map (fun g => g.index) := by
  have h0 : mode ≠ 0 := by omega
  have h1 : mode ≠ 1 := by omega
  have h2 : mode ≠ 2 := by omega
  unfold GPUManager.find GPUManager._sort_by_memory
  simp only [h0, h1, h2, if_false, reduceIte, Bool.false_eq_true]
  rw [head_sortOnKeyDesc]
  cases firstMaxBy GPUManager.memRatio
      (GPUManager.poolOf (GPUManager.refresh st fresh)) <;> rfl

theorem find_logs_modeElse (st : List GPU) (fresh : List GPUInfo) (mode : Nat)
    (hm : 3 ≤ mode) :
    (GPUManager.find st fresh mode).map (fun r => r.logs) =
      (GPUManager.find st fresh mode).map (fun _ => [GPUManager.msgModeElse]) := by
  have h0 : mode ≠ 0 := by omega
  have h1 : mode ≠ 1 := by omega
  have h2 : mode ≠ 2 := by omega
  unfold GPUManager.find GPUManager._sort_by_memory
  simp only [h0, h1, h2, if_false, reduceIte, Bool.false_eq_true]
  cases (sortOnKeyDesc GPUManager.memRatio
      (GPUManager.poolOf (GPUManager.refresh st fresh))).head? <;> rfl

theorem poolOf_ne_nil (gpus2 : List GPU) (h : gpus2 ≠ []) :
    GPUManager.poolOf gpus2 ≠ [] := by
  unfold GPUManager.poolOf
  dsimp only
  split
  · exact h
  · next he =>
    intro hnil
    exact he (by simp [hnil])

theorem exists_head (l : List α) (h : l ≠ []) : ∃ a, l.head? = some a := by
  cases l with
  | nil => exact absurd rfl h
  | cons a rest => exact ⟨a, rfl⟩

theorem _sort_by_memory_ne_nil (gpus : List GPU) (b : Bool) (h : gpus ≠ []) :
    GPUManager._sort_by_memory gpus b ≠ [] := by
  unfold GPUManager._sort_by_memory
  cases b with
  | true => simpa using sortOnKeyDesc_ne_nil _ gpus h
  | false => simpa using sortOnKeyDesc_ne_nil GPUManager.memRatio gpus h

theorem _sort_by_power_ne_nil (gpus : List GPU) (h : gpus ≠ []) :
    GPUManager._sort_by_power gpus ≠ [] :=
  sortOnKeyAsc_ne_nil by_power gpus h

/-! ### C1 -/

/-- C1 (counterexample): in the default mode (`mode = 0`) the manager
returns device 0, the one with the larger absolute free memory, even
though device 1 has the strictly larger `memory_free / memory_total`
ratio — the default mode does not rank by free ratio. -/
theorem default_mode_not_free_ratio_cex :
    (GPUManager.find (GPUManager.init [qA, qB]) [qA, qB] 0).map
        (fun r => r.chosen_index) = some 0 ∧
    GPUManager.poolOf (GPUManager.refresh (GPUManager.init [qA, qB]) [qA, qB]) =
      [gA, gB] ∧
    gA.index = 0 ∧ gB.index = 1 ∧
    GPUManager.memRatio gA < GPUManager.memRatio gB := by
  refine ⟨rfl, rfl, rfl, rfl, ?_⟩
  show (100 : ℚ) / 1000 < (50 : ℚ) / 50
  norm_num

/-- C1 (amended): in the default mode (`mode = 0`) `find` returns the
index of the first record of the candidate pool attaining the maximal
absolute `memory_free` (ties broken by first-seen order); the free
ratio plays no role in the default mode. -/
theorem default_mode_first_max_absolute_free (st : List GPU) (fresh : List GPUInfo)
    (h : st ≠ []) :
    ∃ l1 g l2,
      GPUManager.poolOf (GPUManager.refresh st fresh) = l1 ++ g :: l2 ∧
      (∀ y ∈ GPUManager.poolOf (GPUManager.refresh st fresh),
        y.memory_free ≤ g.memory_free) ∧
      (∀ y ∈ l1, y.memory_free < g.memory_free) ∧
      (GPUManager.find st fresh 0).map (fun r => r.chosen_index) = some g.index := by
  have hpool := poolOf_ne_nil _ (refresh_ne_nil st fresh h)
  obtain ⟨g, hg⟩ := firstMaxBy_isSome (fun g => g.memory_free) _ hpool
  obtain ⟨l1, l2, hsplit, hmax, hstrict⟩ := firstMaxBy_spec _ _ _ hg
  refine ⟨l1, g, l2, hsplit, hmax, hstrict, ?_⟩
  rw [find_map_chosen_mode0, hg]
  rfl

/-- C1 (witness): the amended statement applied to the two concrete
devices `qA`, `qB`. -/
theorem default_mode_first_max_absolute_free_witness :
    ∃ l1 g l2,
      GPUManager.poolOf (GPUManager.refresh (GPUManager.init [qA, qB]) [qA, qB]) =
        l1 ++ g :: l2 ∧
      (∀ y ∈ GPUManager.poolOf (GPUManager.refresh (GPUManager.init [qA, qB]) [qA, qB]),
        y.memory_free ≤ g.memory_free) ∧
      (∀ y ∈ l1, y.memory_free < g.memory_free) ∧
      (GPUManager.find (GPUManager.init [qA, qB]) [qA, qB] 0).map
        (fun r => r.chosen_index) = some g.index :=
  default_mode_first_max_absolute_free (GPUManager.init [qA, qB]) [qA, qB]
    (by simp [GPUManager.init])

/-! ### C9 -/

/-- C9 (counterexample): on the same state, an unrecognized mode (7)
returns device 1 (the free-ratio winner) while the default mode 0
returns device 0 (the absolute-free-memory winner) — an unrecognized
mode does not return the same index as the default mode. -/
theorem unrecognized_mode_differs_from_default_cex :
    (GPUManager.find (GPUManager.init [qA, qB]) [qA, qB] 7).map
        (fun r => r.chosen_index) = some 1 ∧
    (GPUManager.find (GPUManager.init [qA, qB]) [qA, qB] 0).map
        (fun r => r.chosen_index) = some 0 ∧
    (some 1 : Option Nat) ≠ some 0 := by
  refine ⟨by with_unfolding_all decide, rfl, by decide⟩

/-- C9 (amended): an unrecognized mode never fails: whenever at least
one record exists it returns the index of the first pool record
attaining the maximal `memory_free / memory_total` ratio (the
by-free-ratio policy, which is not the default mode's policy) and
prints the unsupported-mode diagnostic. -/
theorem unrecognized_mode_free_ratio (st : List GPU) (fresh : List GPUInfo)
    (mode : Nat) (hm : 3 ≤ mode) (h : st ≠ []) :
    ∃ l1 g l2,
      GPUManager.poolOf (GPUManager.refresh st fresh) = l1 ++ g :: l2 ∧
      (∀ y ∈ GPUManager.poolOf (GPUManager.refresh st fresh),
        GPUManager.memRatio y ≤ GPUManager.memRatio g) ∧
      (∀ y ∈ l1, GPUManager.memRatio y < GPUManager.memRatio g) ∧
      GPUManager.find st fresh mode =
        some { chosen_index := g.index,
               state := GPUManager.markFirst (GPUManager.refresh st fresh) g,
               logs := [GPUManager.msgModeElse] } := by
  have h0 : mode ≠ 0 := by omega
  have h1 : mode ≠ 1 := by omega
  have h2 : mode ≠ 2 := by omega
  have hpool := poolOf_ne_nil _ (refresh_ne_nil st fresh h)
  obtain ⟨g, hg⟩ := firstMaxBy_isSome GPUManager.memRatio _ hpool
  obtain ⟨l1, l2, hsplit, hmax, hstrict⟩ := firstMaxBy_spec _ _ _ hg
  refine ⟨l1, g, l2, hsplit, hmax, hstrict, ?_⟩
  unfold GPUManager.find GPUManager._sort_by_memory
  simp only [h0, h1, h2, if_false, reduceIte, Bool.false_eq_true]
  rw [head_sortOnKeyDesc, hg]
  simp

/-- C9 (witness): the amended statement applied to mode 7 on the two
concrete devices. -/
theorem unrecognized_mode_free_ratio_witness :
    ∃ l1 g l2,
      GPUManager.poolOf (GPUManager.refresh (GPUManager.init [qA, qB]) [qA, qB]) =
        l1 ++ g :: l2 ∧
      (∀ y ∈ GPUManager.poolOf (GPUManager.refresh (GPUManager.init [qA, qB]) [qA, qB]),
        GPUManager.memRatio y ≤ GPUManager.memRatio g) ∧
      (∀ y ∈ l1, GPUManager.memRatio y < GPUManager.memRatio g) ∧
      GPUManager.find (GPUManager.init [qA, qB]) [qA, qB] 7 =
        some { chosen_index := g.index,
               state := GPUManager.markFirst
                 (GPUManager.refresh (GPUManager.init [qA, qB]) [qA, qB]) g,
               logs := [GPUManager.msgModeElse] } :=
  unrecognized_mode_free_ratio (GPUManager.init [qA, qB]) [qA, qB] 7
    (by omega) (by simp [GPUManager.init])

/-! ### C6 -/

/-- C6 (counterexample): constructing the manager from an empty device
list succeeds — `__init__` performs no device-count check and returns
the empty record list instead of failing with a `NoDeviceFound` error —
and `find` on the resulting state then has an error path (`IndexError`,
modelled as `none`). -/
theorem empty_construction_succeeds_cex :
    GPUManager.init [] = ([] : List GPU) ∧
    GPUManager.find (GPUManager.init []) [] 0 = none := ⟨rfl, rfl⟩

/-- C6 (amended): construction never fails regardless of the device
count (it just stores the records, all unclaimed); when every record is
claimed the candidate pool falls back to the full record list; and
whenever at least one record exists, `find` always returns a concrete
result for every mode. -/
theorem construction_never_fails_and_find_total :
    (∀ q : List GPUInfo, (GPUManager.init q).length = q.length ∧
      ∀ g ∈ GPUManager.init q, g.specified = false) ∧
    (∀ gpus2 : List GPU, (∀ g ∈ gpus2, g.specified = true) →
      GPUManager.poolOf gpus2 = gpus2) ∧
    (∀ (st : List GPU) (fresh : List GPUInfo) (mode : Nat), st ≠ [] →
      ∃ r, GPUManager.find st fresh mode = some r) := by
  refine ⟨?_, ?_, ?_⟩
  · intro q
    constructor
    · simp [GPUManager.init]
    · intro g hg
      simp only [GPUManager.init, List.mem_map] at hg
      obtain ⟨q0, _, rfl⟩ := hg
      rfl
  · intro gpus2 hall
    unfold GPUManager.poolOf
    dsimp only
    rw [if_pos]
    rw [List.isEmpty_iff, List.filter_eq_nil_iff]
    intro g hg
    simp [hall g hg]
  · intro st fresh mode h
    have hpool := poolOf_ne_nil _ (refresh_ne_nil st fresh h)
    unfold GPUManager.find
    by_cases hm0 : mode = 0
    · subst hm0
      simp only [reduceIte]
      obtain ⟨c, hc⟩ := exists_head _ (_sort_by_memory_ne_nil _ true hpool)
      rw [hc]
      exact ⟨_, rfl⟩
    · by_cases hm1 : mode = 1
      · subst hm1
        have h10 : (1 : Nat) ≠ 0 := by decide
        simp only [h10, if_false, reduceIte]
        obtain ⟨c, hc⟩ := exists_head _ (_sort_by_power_ne_nil _ hpool)
        rw [hc]
        exact ⟨_, rfl⟩
      · by_cases hm2 : mode = 2
        · subst hm2
          have h20 : (2 : Nat) ≠ 0 := by decide
          have h21 : (2 : Nat) ≠ 1 := by decide
          simp only [h20, h21, if_false, reduceIte]
          obtain ⟨c, hc⟩ := exists_head _ (_sort_by_power_ne_nil _ hpool)
          rw [hc]
          exact ⟨_, rfl⟩
        · simp only [hm0, hm1, hm2, if_false, reduceIte]
          obtain ⟨c, hc⟩ := exists_head _ (_sort_by_memory_ne_nil _ false hpool)
          rw [hc]
          exact ⟨_, rfl⟩

/-- C6 (witness): the totality part applied to a one-device state, and
the fallback part applied to a fully claimed list. -/
theorem construction_never_fails_and_find_total_witness :
    (GPUManager.poolOf [g8] = [g8]) ∧
    (∃ r, GPUManager.find [g8] [q8a] 0 = some r) := by
  constructor
  · exact construction_never_fails_and_find_total.2.1 [g8]
      (by intro g hg; simp at hg; subst hg; rfl)
  · exact construction_never_fails_and_find_total.2.2 [g8] [q8a] 0
      (by simp)

/-! ### C7 -/

/-- C7 (counterexample): the unsupported-power device `gU` (score `1`)
sorts before — not after — the supported device `gOver`, whose
`power_draw / power_limit` ratio is `6/5 > 1`: the sentinel score `1`
is not the worst possible score. -/
theorem power_sentinel_not_last_cex :
    powerUnsupported gU = true ∧ powerUnsupported gOver = false ∧
    by_power gU = 1 ∧ by_power gOver = 6 / 5 ∧
    GPUManager._sort_by_power [gOver, gU] = [gU, gOver] := by
  refine ⟨rfl, by decide, rfl, ?_, by with_unfolding_all decide⟩
  norm_num [by_power, gOver]

/-- C7 (amended): under by-power scoring every device whose
`power_draw` or `power_limit` equals the sentinel value `1` receives
the fixed score `1` (not the worst possible score) and is named in a
diagnostic; the pool is sorted ascending by score, so a sentinel device
sorts after every device using strictly less than its full power
budget, but before any device whose ratio exceeds `1`; every supported
device is ranked by `power_draw / power_limit`. -/
theorem power_sort_sentinel_score (gpus : List GPU) :
    (GPUManager._sort_by_power gpus).Pairwise
      (fun a b => by_power a ≤ by_power b) ∧
    (GPUManager._sort_by_power gpus).Perm gpus ∧
    (∀ d, powerUnsupported d = true → by_power d = 1) ∧
    (∀ d, powerUnsupported d = false →
      by_power d = d.power_draw / d.power_limit) ∧
    (∀ d ∈ gpus, powerUnsupported d = true →
      d.index ∈ GPUManager.by_power_logs gpus) := by
  refine ⟨pairwise_sortOnKeyAsc by_power gpus, sortOnKeyAsc_perm by_power gpus,
    ?_, ?_, ?_⟩
  · intro d hd
    simp only [powerUnsupported, Bool.or_eq_true, beq_iff_eq] at hd
    unfold by_power
    rw [if_pos hd]
  · intro d hd
    simp only [powerUnsupported, Bool.or_eq_false_iff, beq_eq_false_iff_ne] at hd
    unfold by_power
    rw [if_neg]
    rintro (h | h)
    · exact hd.1 h
    · exact hd.2 h
  · intro d hd hu
    unfold GPUManager.by_power_logs
    exact List.mem_map_of_mem _ (List.mem_filter.mpr ⟨hd, hu⟩)

/-- C7 (witness): the sentinel-score part applied to the concrete
sentinel device `gU`, and the diagnostic part applied to the list
containing it. -/
theorem power_sort_sentinel_score_witness :
    by_power gU = 1 ∧ gU.index ∈ GPUManager.by_power_logs [gOver, gU] :=
  ⟨(power_sort_sentinel_score [gU]).2.2.1 gU rfl,
   (power_sort_sentinel_score [gOver, gU]).2.2.2.2 gU (by simp) rfl⟩

/-! ### C8 -/

/-- C8 (counterexample): refreshing a one-record state against a fresh
query that lists a new device index 1 drops the new device entirely:
the merged list still has a single record and no record with index 1
exists, instead of the claimed `claimed = false` record for the
first-seen index. -/
theorem refresh_drops_new_index_cex :
    GPUManager.refresh [g8] [q8a, q8b] = [GPUManager.updateRecord g8 q8a] ∧
    (GPUManager.refresh [g8] [q8a, q8b]).length = 1 ∧
    q8b.index = 1 ∧
    ∀ g ∈ GPUManager.refresh [g8] [q8a, q8b], g.index ≠ 1 := by
  refine ⟨rfl, rfl, rfl, ?_⟩
  decide

/-- C8 (amended): the refresh merge is positional, not by device
index: at every position `k` present in both lists the old record is
overwritten by the `k`-th fresh query with only `specified` surviving
(that is exactly `updateRecord`); `specified` always comes from the old
record at the same position; positions beyond the fresh list keep the
old record unchanged; and the merged list has exactly the old list's
length, so fresh records beyond it are dropped. -/
theorem refresh_positional_merge (old : List GPU) (fresh : List GPUInfo) (k : Nat) :
    ((GPUManager.refresh old fresh)[k]?).map (fun g => g.specified) =
      (old[k]?).map (fun g => g.specified) ∧
    (∀ g q, old[k]? = some g → fresh[k]? = some q →
      (GPUManager.refresh old fresh)[k]? = some (GPUManager.updateRecord g q)) ∧
    (fresh.length ≤ k → (GPUManager.refresh old fresh)[k]? = old[k]?) ∧
    (GPUManager.refresh old fresh).length = old.length := by
  induction old generalizing fresh k with
  | nil =>
    cases fresh with
    | nil => simp [GPUManager.refresh]
    | cons q qs => simp [GPUManager.refresh]
  | cons g0 gs ih =>
    cases fresh with
    | nil =>
      refine ⟨rfl, ?_, fun _ => rfl, rfl⟩
      intro g q hg hq
      simp at hq
    | cons q0 qs =>
      cases k with
      | zero =>
        refine ⟨?_, ?_, ?_, ?_⟩
        · simp [GPUManager.refresh, GPUManager.updateRecord]
        · intro g q hg hq
          simp only [List.getElem?_cons_zero, Option.some.injEq] at hg hq
          subst hg
          subst hq
          simp [GPUManager.refresh]
        · intro hlen
          simp at hlen
        · simp [GPUManager.refresh, refresh_length]
      | succ k =>
        obtain ⟨ih1, ih2, ih3, ih4⟩ := ih qs k
        refine ⟨?_, ?_, ?_, ?_⟩
        · simpa [GPUManager.refresh] using ih1
        · intro g q hg hq
          simp only [List.getElem?_cons_succ] at hg hq
          simpa [GPUManager.refresh] using ih2 g q hg hq
        · intro hlen
          simp only [List.length_cons, Nat.succ_le_succ_iff] at hlen
          simpa [GPUManager.refresh] using ih3 hlen
        · simp [GPUManager.refresh, ih4]

/-- C8 (witness): the positional-merge equation applied at position 0
of the concrete one-record state against the two-device query. -/
theorem refresh_positional_merge_witness :
    (GPUManager.refresh [g8] [q8a, q8b])[0]? =
      some (GPUManager.updateRecord g8 q8a) :=
  (refresh_positional_merge [g8] [q8a, q8b] 0).2.1 g8 q8a rfl rfl

/-! ### C2 -/

theorem track_diff_eq_nil_iff (last cur : List SummaryEntry) :
    MemTracker.track_diff last cur = [] ↔ ∀ e ∈ cur, e ∈ last := by
  unfold MemTracker.track_diff
  rw [List.filter_eq_nil_iff]
  constructor
  · intro h e he
    simpa using h e he
  · intro h e he
    simpa using h e he

theorem track_detail_changeLines (last cur plus minus : List SummaryEntry)
    (h : MemTracker.track_detail last cur =
      MemTracker.TrackReport.changeLines plus minus) :
    plus = (sortOnKeyDesc (fun e => e.size_mb) (MemTracker.track_diff last cur)).filter
        (fun e => decide (MemTracker.memory_min < e.size_mb)) ∧
    minus = (sortOnKeyAsc (fun e => e.size_mb) (MemTracker.track_diff last cur)).filter
        (fun e => decide (MemTracker.memory_min < e.size_mb)) := by
  unfold MemTracker.track_detail at h
  dsimp only at h
  split at h
  · exact absurd h (by simp)
  · injection h with h1 h2
    exact ⟨h1.symm, h2.symm⟩

set_option maxRecDepth 8000 in
/-- C2 (counterexample): on the spec's worked example (previous
summary: two (4,4) tensors; current scan: three (4,4) tensors and five
below-threshold (8,) tensors) the appeared entry carries the full new
count 3, not the delta 1, and the disappeared partition is not empty —
it repeats the very same entry, because both partitions are computed
from `new_summary - last_summary`. -/
theorem diff_counts_not_delta_cex :
    MemTracker.summarize exCurrentInfos = [eCur44, eCur8] ∧
    MemTracker.track_detail [ePrev44] (MemTracker.summarize exCurrentInfos) =
      MemTracker.TrackReport.changeLines [eCur44] [eCur44] ∧
    eCur44.count = 3 ∧ eCur44.count ≠ 1 ∧
    ([eCur44] : List SummaryEntry) ≠ [] := by
  refine ⟨by with_unfolding_all decide, by with_unfolding_all decide, rfl,
    by decide, by decide⟩

/-- C2 (amended): both partitions of the report are drawn from the set
difference `new_summary - last_summary` of (type, shape, size, count)
4-tuples: they are permutations of each other; every reported entry is
absent (as a 4-tuple) from the previous summary, exceeds the size
threshold, and carries its full count in the current scan (not a
delta); and conversely every above-threshold entry of the current
summary absent from the previous one is reported. -/
theorem diff_partitions_full_counts (last : List SummaryEntry)
    (current : List TensorInfo) (plus minus : List SummaryEntry)
    (h : MemTracker.track_detail last (MemTracker.summarize current) =
      MemTracker.TrackReport.changeLines plus minus) :
    plus.Perm minus ∧
    (∀ e ∈ plus, e ∉ last ∧ MemTracker.memory_min < e.size_mb ∧
      e.count = current.count
        { type_str := e.type_str, shape_str := e.shape_str, size_mb := e.size_mb }) ∧
    (∀ e ∈ MemTracker.summarize current, e ∉ last →
      MemTracker.memory_min < e.size_mb → e ∈ plus) := by
  obtain ⟨hp, hm⟩ := track_detail_changeLines _ _ _ _ h
  subst hp
  subst hm
  refine ⟨?_, ?_, ?_⟩
  · exact ((sortOnKeyDesc_perm _ _).filter _).trans
      (((sortOnKeyAsc_perm _ _).filter _).symm)
  · intro e he
    rw [List.mem_filter] at he
    obtain ⟨hsort, hsz⟩ := he
    have hdiff : e ∈ MemTracker.track_diff last (MemTracker.summarize current) :=
      (sortOnKeyDesc_perm _ _).mem_iff.mp hsort
    unfold MemTracker.track_diff at hdiff
    rw [List.mem_filter] at hdiff
    obtain ⟨hcur, hnotlast⟩ := hdiff
    refine ⟨by simpa using hnotlast, by simpa using hsz, ?_⟩
    simp only [MemTracker.summarize, List.mem_map] at hcur
    obtain ⟨i, _, rfl⟩ := hcur
    rfl
  · intro e hcur hnot hsz
    rw [List.mem_filter]
    constructor
    · rw [(sortOnKeyDesc_perm _ _).mem_iff]
      unfold MemTracker.track_diff
      rw [List.mem_filter]
      exact ⟨hcur, by simpa using hnot⟩
    · simpa using hsz

set_option maxRecDepth 8000 in
/-- C2 (witness): the amended facts instantiated on the worked
example: the reported entry is new as a 4-tuple, above threshold, and
counted in full. -/
theorem diff_partitions_full_counts_witness :
    eCur44 ∉ [ePrev44] ∧ MemTracker.memory_min < eCur44.size_mb ∧
    eCur44.count = exCurrentInfos.count
      { type_str := eCur44.type_str, shape_str := eCur44.shape_str,
        size_mb := eCur44.size_mb } :=
  (diff_partitions_full_counts [ePrev44] exCurrentInfos [eCur44] [eCur44]
    (by with_unfolding_all decide)).2.1 eCur44 (by decide)

/-! ### C3 -/

set_option maxRecDepth 8000 in
/-- C3 (code bug): diff against an empty previous snapshot yields
`appeared = S` as claimed, but the disappeared (`-`) partition is not
empty: it repeats the whole summary, because the source computes
`decrement` from `new_summary - self.last_summary` (the same set as
`increment`) instead of `self.last_summary - new_summary`, contradicting
its own `decrement` name and `-` output marker. -/
theorem first_call_minus_partition_nonempty :
    MemTracker.track_detail [] [ePrev44] =
      MemTracker.TrackReport.changeLines [ePrev44] [ePrev44] ∧
    ([ePrev44] : List SummaryEntry) ≠ [] :=
  ⟨by with_unfolding_all decide, by decide⟩

/-! ### C4 -/

/-- C4 (counterexample): with two appeared entries — one of size 1 MB
count 1 (total impact 1 MB) and one of size 0.5 MB count 10 (total
impact 5 MB) — the report lists the 1 MB entry first: the sort key is
`size_mb` alone, so the entry with the strictly smaller
`size_mb * count` impact comes first, refuting impact-descending
order. -/
theorem appeared_not_sorted_by_impact_cex :
    MemTracker.track_detail [] [eBig, eMany] =
      MemTracker.TrackReport.changeLines [eBig, eMany] [eMany, eBig] ∧
    eBig.size_mb * (eBig.count : ℚ) < eMany.size_mb * (eMany.count : ℚ) := by
  refine ⟨by with_unfolding_all decide, ?_⟩
  show (1 : ℚ) * (1 : ℚ) < (1 / 2 : ℚ) * (10 : ℚ)
  norm_num

/-- C4 (amended): the `+` partition is sorted descending and the `-`
partition ascending by `size_mb` alone (the per-allocation size, not
the `size_mb * count` total impact). -/
theorem diff_sorted_by_size_alone (last cur plus minus : List SummaryEntry)
    (h : MemTracker.track_detail last cur =
      MemTracker.TrackReport.changeLines plus minus) :
    plus.Pairwise (fun a b => b.size_mb ≤ a.size_mb) ∧
    minus.Pairwise (fun a b => a.size_mb ≤ b.size_mb) := by
  obtain ⟨hp, hm⟩ := track_detail_changeLines _ _ _ _ h
  subst hp
  subst hm
  constructor
  · exact (pairwise_sortOnKeyDesc _ _).sublist (List.filter_sublist _)
  · exact (pairwise_sortOnKeyAsc _ _).sublist (List.filter_sublist _)

/-- C4 (witness): the sortedness facts instantiated on the concrete
two-entry diff. -/
theorem diff_sorted_by_size_alone_witness :
    ([eBig, eMany] : List SummaryEntry).Pairwise (fun a b => b.size_mb ≤ a.size_mb) ∧
    ([eMany, eBig] : List SummaryEntry).Pairwise (fun a b => a.size_mb ≤ b.size_mb) :=
  diff_sorted_by_size_alone [] [eBig, eMany] [eBig, eMany] [eMany, eBig]
    (by with_unfolding_all decide)

/-! ### C5 -/

/-- C5 (counterexample): when the only change is below the size
threshold, both partitions are empty after filtering yet the report is
the (empty) change report, not the explicit no-change marker: the
marker is decided on the unfiltered set difference. -/
theorem below_threshold_no_marker_cex :
    MemTracker.track_detail [] [eCur8] =
      MemTracker.TrackReport.changeLines [] [] ∧
    MemTracker.TrackReport.changeLines [] [] ≠ MemTracker.TrackReport.noChange :=
  ⟨by with_unfolding_all decide, by decide⟩

/-- C5 (amended): the report is the explicit no-change marker exactly
when the set difference `new_summary - last_summary` is empty before
threshold filtering — i.e. when every (type, shape, size, count) tuple
of the current summary already occurs in the previous one; in
particular diffing a summary against itself yields the marker. -/
theorem no_change_iff_all_in_previous :
    (∀ last cur : List SummaryEntry,
      MemTracker.track_detail last cur = MemTracker.TrackReport.noChange ↔
        ∀ e ∈ cur, e ∈ last) ∧
    (∀ s : List SummaryEntry,
      MemTracker.track_detail s s = MemTracker.TrackReport.noChange) := by
  have hiff : ∀ last cur : List SummaryEntry,
      MemTracker.track_detail last cur = MemTracker.TrackReport.noChange ↔
        ∀ e ∈ cur, e ∈ last := by
    intro last cur
    unfold MemTracker.track_detail
    dsimp only
    constructor
    · intro hnc
      rw [← track_diff_eq_nil_iff last cur]
      by_cases hd : (MemTracker.track_diff last cur).isEmpty
      · exact List.isEmpty_iff.mp hd
      · rw [if_neg hd] at hnc
        exact absurd hnc (by simp)
    · intro hall
      rw [if_pos]
      rw [List.isEmpty_iff]
      exact (track_diff_eq_nil_iff last cur).mpr hall
  refine ⟨hiff, ?_⟩
  intro s
  exact (hiff s s).mpr (fun e he => he)

/-- C5 (witness): diffing the worked example's previous summary
against itself yields the no-change marker. -/
theorem no_change_iff_all_in_previous_witness :
    MemTracker.track_detail [ePrev44] [ePrev44] =
      MemTracker.TrackReport.noChange :=
  no_change_iff_all_in_previous.2 [ePrev44]

/-! ### C10 -/

/-- C10: for every non-empty argument `distinguish_param_cache` builds
`param_indices` from the first row and then fails with a `NameError`
for the unbound name `n` before returning: `n` is neither a local of
the method, nor a module-scope name of `gpu_mem_track.py`, nor a
builtin, so no call on a non-empty argument can succeed. -/
theorem distinguish_param_cache_unbound_n (tl : List (List String)) (h : tl ≠ []) :
    distinguish_param_cache tl = Except.error (PyErr.nameError ("n")) := by
  cases tl with
  | nil => exact absurd rfl h
  | cons r rest => with_unfolding_all rfl

/-- C10 (witness): the failure evaluated on a concrete two-row
argument whose first row mentions a parameter tensor. -/
theorem distinguish_param_cache_unbound_n_witness :
    distinguish_param_cache [["a param b"], ["x"]] =
      Except.error (PyErr.nameError ("n")) :=
  distinguish_param_cache_unbound_n [["a param b"], ["x"]] (by simp)
